import Mathlib

/-!
Verification development for the selector-synthesis and page-classification
core of the recorded-test framework (chrome extension content scripts
`selector-generator.ts` and `page-analyzer.ts`).

The live DOM is modelled as a tree of element and text nodes.
`document.querySelectorAll` is modelled as a total structural query over
that tree: a selector is represented by the syntax tree `Sel` of exactly
the selector strings the generator builds, and matching compares stored
attribute values literally (CSS escaping round-trips through the CSS
parser, so it is modelled as the identity on the stored value).
-/

namespace DemoFramework

/-- A DOM node: a text node or an element with a tag name (stored
lowercase, as compared by the source via `tagName.toLowerCase()`),
its attribute list and its child nodes. -/
inductive Node where
  | text (s : String) : Node
  | el (tag : String) (attrs : List (String × String)) (children : List Node) : Node
deriving Repr

/-- Model of `getAttribute`: first binding of the attribute, `none` when absent. -/
def Node.getAttr (n : Node) (name : String) : Option String :=
  match n with
  | .text _ => none
  | .el _ attrs _ => (attrs.find? (fun p => p.1 = name)).map (·.2)

def Node.tag : Node → String
  | .text _ => ""
  | .el t _ _ => t

def Node.isElem : Node → Bool
  | .el .. => true
  | .text _ => false

/-- JS truthiness of a nullable string: `null` and `""` are falsy. -/
def truthy (o : Option String) : Option String :=
  match o with
  | some s => if s = "" then none else some s
  | none => none

def isJsSpace (c : Char) : Bool :=
  c = ' ' ∨ c = '\t' ∨ c = '\n' ∨ c = '\r' ∨ c = '\x0b' ∨ c = '\x0c'

/-- JS `String.prototype.trim`. -/
def jsTrim (s : String) : String :=
  String.mk (((s.toList.dropWhile isJsSpace).reverse.dropWhile isJsSpace).reverse)

/-- Split on whitespace runs, dropping empty tokens. -/
def wsTokensAux : List Char → List Char → List String
  | acc, [] => if acc = [] then [] else [String.mk acc.reverse]
  | acc, c :: cs =>
      if isJsSpace c then
        (if acc = [] then wsTokensAux [] cs
         else String.mk acc.reverse :: wsTokensAux [] cs)
      else wsTokensAux (c :: acc) cs

def wsTokens (s : String) : List String := wsTokensAux [] s.toList

/-- JS `String.prototype.includes` of a single character. -/
def strHas (s : String) (c : Char) : Bool := s.toList.contains c

/-- JS `String.prototype.substring(0, n)`. -/
def strTake (s : String) (n : Nat) : String := String.mk (s.toList.take n)

/-- The `class` attribute value (empty when absent). -/
def Node.classAttr (n : Node) : String := (n.getAttr "class").getD ""

/-- Model of `element.classList`: the class attribute split on whitespace. -/
def Node.classList (n : Node) : List String := wsTokens n.classAttr

/-- Element children (`element.children`), skipping text nodes. -/
def Node.elemChildren (n : Node) : List Node :=
  match n with
  | .text _ => []
  | .el _ _ cs => cs.filter Node.isElem

/-- Model of `element.textContent`: concatenation of all text in the subtree. -/
def Node.textContent : Node → String
  | .text s => s
  | .el _ _ cs => go cs
where go : List Node → String
  | [] => ""
  | c :: cs => Node.textContent c ++ go cs

/-- Direct (non-descendant) text content, concatenating the element's own
text-node children only (`getDirectTextContent` before trimming). -/
def Node.directText (n : Node) : String :=
  match n with
  | .text _ => ""
  | .el _ _ cs => go cs
where go : List Node → String
  | [] => ""
  | .text s :: cs => s ++ go cs
  | .el _ _ _ :: cs => go cs

/-- An element location: the path of element-child indices from the
document root (`document.documentElement`, location `[]`). Node identity
in the tree is location identity. -/
abbrev Loc := List Nat

def Node.nodeAt : Node → Loc → Option Node
  | n, [] => some n
  | n, i :: l => match (n.elemChildren).get? i with
    | some c => c.nodeAt l
    | none => none

/-- All element locations of the subtree, in document (preorder) order. -/
def Node.subtreeLocs : Node → List Loc
  | .text _ => []
  | .el _ _ cs => [] :: go 0 cs
where go : Nat → List Node → List Loc
  | _, [] => []
  | i, .text _ :: cs => go i cs
  | i, .el t a c :: cs => ((Node.el t a c).subtreeLocs).map (fun l => i :: l) ++ go (i + 1) cs

/-- All elements of the subtree (including the root element itself), in
document order: the result list of `querySelectorAll`-style scans. -/
def Node.allElems : Node → List Node
  | .text _ => []
  | .el t a cs => Node.el t a cs :: go cs
where go : List Node → List Node
  | [] => []
  | .text _ :: cs => go cs
  | .el t a c :: cs => (Node.el t a c).allElems ++ go cs

/-- Strict descendants: the scan space of `element.querySelectorAll`. -/
def Node.descendants (n : Node) : List Node :=
  match n with
  | .text _ => []
  | .el _ _ cs => Node.allElems.go cs

/-- Model of `document.body`: the location of the first element child of the root
whose tag is `body`, if any. -/
def bodyLoc (doc : Node) : Option Loc :=
  match (doc.elemChildren.enum.find? (fun p => p.2.tag = "body")) with
  | some p => some [p.1]
  | none => none

/-- One level of a positional CSS path. -/
inductive PathPart where
  | plain (tag : String) : PathPart
  | nthOfType (tag : String) (k : Nat) : PathPart
  | nthChild (tag : String) (k : Nat) : PathPart
deriving Repr, DecidableEq

/-- Syntax of exactly the selector strings the generator builds. `attr`
is an attribute selector whose value was interpolated raw (the
data-testid / data-cy / data-test generators); `attrEscaped` is one whose
value went through `escapeAttributeValue` first (the aria-label
generator). -/
inductive Sel where
  | attr (name value : String) : Sel
  | attrEscaped (name value : String) : Sel
  | roleLabel (role label : String) : Sel
  | hashId (id : String) : Sel
  | tagClasses (tag : String) (classes : List String) : Sel
  | roleClass (role cls : String) : Sel
  | containsSel (base : Sel) (txt : String) : Sel
  | roleOnly (role : String) : Sel
  | pathSel (parts : List PathPart) : Sel
deriving Repr, DecidableEq

/-- A raw-interpolated attribute value reads back literally from the
selector string only when it contains no double quote, backslash or
newline: a double quote or newline ends the double-quoted CSS string
early (typically making `querySelectorAll` throw a SyntaxError on the
unparseable remainder), and a backslash starts a CSS escape sequence, so
the parsed selector denotes a different value. -/
def rawValueLiteral (v : String) : Bool :=
  !(v.toList.contains '"' || v.toList.contains '\\' || v.toList.contains '\n')

/-- Matching of the non-positional selector forms against a single node.
A raw-interpolated `attr` value that does not embed literally gives a
selector string on which `querySelectorAll` either throws a SyntaxError —
which `isUnique` catches, reporting the selector non-unique — or reads a
different value than was written; the model conservatively resolves such
selectors to no element. `attrEscaped` values round-trip through the
escaping and are compared literally. -/
def simpleMatches (n : Node) : Sel → Bool
  | .attr name value => rawValueLiteral value ∧ n.getAttr name = some value
  | .attrEscaped name value => n.getAttr name = some value
  | .roleLabel role label => n.getAttr "role" = some role ∧ n.getAttr "aria-label" = some label
  | .hashId i => n.getAttr "id" = some i
  | .tagClasses t cs => n.tag = t ∧ cs.all (fun c => (n.classList).contains c)
  | .roleClass role cls => n.getAttr "role" = some role ∧ (n.classList).contains cls
  | .roleOnly role => n.getAttr "role" = some role
  | .containsSel _ _ => false
  | .pathSel _ => false

/-- The siblings list used by `:nth-of-type` / `:nth-child`: the element
children of the parent; the root element is its own only "sibling". -/
def siblingsOf (doc : Node) (loc : Loc) : List Node :=
  match loc with
  | [] => [doc]
  | _ => match doc.nodeAt loc.dropLast with
    | some p => p.elemChildren
    | none => []

/-- Index of the element within its siblings list (0-based). -/
def childIndexOf (loc : Loc) : Nat := (loc.getLast?).getD 0

/-- The 1-based index among same-tag siblings, for `:nth-of-type`. -/
def nthOfTypeIndex (doc : Node) (loc : Loc) : Nat :=
  match doc.nodeAt loc with
  | none => 0
  | some e => ((siblingsOf doc loc).take (childIndexOf loc)).countP (fun s => s.tag = e.tag) + 1

def tagMatchAt (doc : Node) (loc : Loc) (t : String) : Bool :=
  match doc.nodeAt loc with
  | some e => e.tag = t
  | none => false

def partMatchesAt (doc : Node) (loc : Loc) : PathPart → Bool
  | .plain t => tagMatchAt doc loc t
  | .nthOfType t k => tagMatchAt doc loc t && (nthOfTypeIndex doc loc == k)
  | .nthChild t k => tagMatchAt doc loc t && (childIndexOf loc + 1 == k)

/-- A `>`-combined path, innermost part first (the parts list reversed):
the element matches the head part and each further part matches the next
ancestor up. -/
def chainMatchesAt (doc : Node) : Loc → List PathPart → Bool
  | _, [] => true
  | loc, p :: ps => partMatchesAt doc loc p &&
      (match ps with
       | [] => true
       | _ :: _ => decide (loc ≠ []) && chainMatchesAt doc loc.dropLast ps)

/-- Whether the element at `loc` matches the selector. `:contains`
selectors are never passed to the query engine (`querySelectorAll` throws
on them, which the source catches), and an empty positional path is the
empty selector string, on which `querySelectorAll` also throws. -/
def matchesAt (doc : Node) (loc : Loc) (sel : Sel) : Bool :=
  match sel with
  | .pathSel parts => (match parts with | [] => false | _ :: _ => chainMatchesAt doc loc parts.reverse)
  | .containsSel _ _ => false
  | s => match doc.nodeAt loc with
    | some n => simpleMatches n s
    | none => false

/-- Model of `document.querySelectorAll(sel)` as a list of element locations. -/
def queryAll (doc : Node) (sel : Sel) : List Loc :=
  doc.subtreeLocs.filter (fun l => matchesAt doc l sel)

def queryCount (doc : Node) (sel : Sel) : Nat := (queryAll doc sel).length

/-- Needle is a prefix of the haystack. -/
def isPrefixB : List Char → List Char → Bool
  | [], _ => true
  | _ :: _, [] => false
  | c :: cs, x :: xs => c == x && isPrefixB cs xs

/-- Needle occurs somewhere inside the haystack. -/
def isInfixB (needle : List Char) : List Char → Bool
  | [] => isPrefixB needle []
  | x :: xs => isPrefixB needle (x :: xs) || isInfixB needle xs

/-- JS `String.prototype.includes`. -/
def strIncludes (s t : String) : Bool := isInfixB t.toList s.toList

/-- The manual match count of `isUniqueContains`: elements matching the
base selector whose trimmed `textContent` contains the (trimmed) target
substring. -/
def containsCount (doc : Node) (base : Sel) (txt : String) : Nat :=
  ((queryAll doc base).filter (fun l =>
      match doc.nodeAt l with
      | some n => strIncludes (jsTrim n.textContent) (jsTrim txt)
      | none => false)).length

/-- The `/^(.+?):contains\("(.+?)"\)$/` parse of `isUniqueContains` fails
when the quoted text is empty or spans a newline (`.` does not match a
newline); the selector is then reported non-unique. -/
def containsParseFails (txt : String) : Bool := txt = "" || txt.toList.contains '\n'

/-- Model of `isUnique`: selectors with `:contains` are verified by the manual
counting procedure; all others via `querySelectorAll(...).length === 1`. -/
def isUniqueB (doc : Node) (sel : Sel) : Bool :=
  match sel with
  | .containsSel base txt =>
      if containsParseFails txt then false else containsCount doc base txt == 1
  | s => queryCount doc s == 1

/-- The number of elements a selector resolves to against the document,
using the text-containment counting procedure for `:contains` selectors
(a failed `:contains` parse resolves to nothing). -/
def resolveCount (doc : Node) (sel : Sel) : Nat :=
  match sel with
  | .containsSel base txt =>
      if containsParseFails txt then 0 else containsCount doc base txt
  | s => queryCount doc s

/-- Model of `pattern.replace('*', '.*')` on the character list. -/
def replaceFirstStar : List Char → List Char
  | [] => []
  | c :: cs => if c = '*' then '.' :: '*' :: cs else c :: replaceFirstStar cs

/-- An atom of the compiled anchored regex: a literal character, `.`,
or either of those under a `*` quantifier. -/
inductive RAtom where
  | lit (c : Char) : RAtom
  | dot : RAtom
  | starLit (c : Char) : RAtom
  | starDot : RAtom
deriving Repr, DecidableEq

/-- Compile the post-replacement pattern (characters other than `.` and
`*` are taken as regex literals, which is faithful for the
alphanumeric/`-`/`_` patterns the configuration uses); a quantifier with
nothing to repeat makes `new RegExp` throw, modelled as `none`. -/
def compileRe : List RAtom → List Char → Option (List RAtom)
  | acc, [] => some acc.reverse
  | acc, c :: cs =>
      if c = '.' then compileRe (RAtom.dot :: acc) cs
      else if c = '*' then
        match acc with
        | RAtom.lit d :: rest => compileRe (RAtom.starLit d :: rest) cs
        | RAtom.dot :: rest => compileRe (RAtom.starDot :: rest) cs
        | _ => none
      else compileRe (RAtom.lit c :: acc) cs

/-- Fueled matcher for the anchored regex; every recursive step consumes
one unit of fuel and shrinks `atoms.length + s.length`, so
`atoms.length + s.length + 1` fuel computes the true answer. JS `.` does
not match a newline. -/
def rmatchF : Nat → List RAtom → List Char → Bool
  | 0, _, _ => false
  | _ + 1, [], [] => true
  | _ + 1, [], _ :: _ => false
  | _ + 1, RAtom.lit _ :: _, [] => false
  | fuel + 1, RAtom.lit c :: rs, x :: xs => c == x && rmatchF fuel rs xs
  | _ + 1, RAtom.dot :: _, [] => false
  | fuel + 1, RAtom.dot :: rs, x :: xs => x != '\n' && rmatchF fuel rs xs
  | fuel + 1, RAtom.starLit c :: rs, s =>
      rmatchF fuel rs s ||
        (match s with
         | [] => false
         | x :: xs => c == x && rmatchF fuel (RAtom.starLit c :: rs) xs)
  | fuel + 1, RAtom.starDot :: rs, s =>
      rmatchF fuel rs s ||
        (match s with
         | [] => false
         | x :: xs => x != '\n' && rmatchF fuel (RAtom.starDot :: rs) xs)

def jsRegexMatch (atoms : List RAtom) (s : List Char) : Bool :=
  rmatchF (atoms.length + s.length + 1) atoms s

/-- One configured pattern applied to one class name, exactly as the
generator's constructor compiles it. -/
def isFrameworkPattern (pattern cls : String) : Bool :=
  match compileRe [] (replaceFirstStar pattern.toList) with
  | some atoms => jsRegexMatch atoms cls.toList
  | none => false

/-- Model of `isFrameworkClass`: some configured pattern matches the class name. -/
def isFrameworkClass (patterns : List String) (cls : String) : Bool :=
  patterns.any (fun p => isFrameworkPattern p cls)

/-- The list `DEFAULT_SETTINGS.excludedClassPatterns`. -/
def defaultExcludedClassPatterns : List String :=
  ["ng-*", "sc-*", "css-*", "jsx-*", "_*", "style__*", "Mui*", "chakra-*", "ant-*", "tw-*"]

/-- Full-string glob matching in which `*` is the only wildcard (every
`*` matching any substring, all other characters matching literally):
the semantics the specification ascribes to the configured patterns. -/
def globMatchF : Nat → List Char → List Char → Bool
  | 0, _, _ => false
  | _ + 1, [], [] => true
  | _ + 1, [], _ :: _ => false
  | fuel + 1, p :: ps, s =>
      if p = '*' then
        globMatchF fuel ps s ||
          (match s with
           | [] => false
           | _ :: xs => globMatchF fuel (p :: ps) xs)
      else
        match s with
        | [] => false
        | x :: xs => p == x && globMatchF fuel ps xs

def globMatch (p s : List Char) : Bool := globMatchF (p.length + s.length + 1) p s

def isHexDigit (c : Char) : Bool :=
  c.isDigit || ('a' ≤ c ∧ c ≤ 'f') || ('A' ≤ c ∧ c ≤ 'F')

def isAsciiLetter (c : Char) : Bool :=
  ('a' ≤ c ∧ c ≤ 'z') || ('A' ≤ c ∧ c ≤ 'Z')

def isLowerAlnum (c : Char) : Bool :=
  ('a' ≤ c ∧ c ≤ 'z') || c.isDigit

/-- Patterns shaped like `/^[a-z]+SEPdigits-or-hex$/i`: a nonempty letter run,
one separator character, then a nonempty run of `tailChar` characters of
minimum length `minLen`. -/
def letterSepRun (sep : Char) (tailChar : Char → Bool) (minLen : Nat) (s : List Char) : Bool :=
  let letters := s.takeWhile isAsciiLetter
  let rest := s.drop letters.length
  letters.length > 0 &&
    (match rest with
     | c :: tl => c == sep && tl.length ≥ minLen && tl.all tailChar && tl.length > 0
     | [] => false)

/-- The dynamic/generated-id shapes rejected by `getUniqueId`. -/
def isDynamicId (id : String) : Bool :=
  let s := id.toList
  -- /^[a-f0-9]{8,}$/i
  (s.length ≥ 8 && s.all isHexDigit) ||
  -- /^\d+$/
  (s.length > 0 && s.all Char.isDigit) ||
  -- /^[a-z]+-\d+$/i
  letterSepRun '-' Char.isDigit 1 s ||
  -- /^:r[a-z0-9]+:$/
  (match s with
   | ':' :: 'r' :: tl =>
       (match tl.reverse with
        | ':' :: mid => mid.length > 0 && mid.all isLowerAlnum
        | _ => false)
   | _ => false) ||
  -- /^ember\d+$/
  (isPrefixB ['e', 'm', 'b', 'e', 'r'] s &&
    (let tl := s.drop 5; tl.length > 0 && tl.all Char.isDigit)) ||
  -- /^ui-id-\d+$/
  (isPrefixB ['u', 'i', '-', 'i', 'd', '-'] s &&
    (let tl := s.drop 6; tl.length > 0 && tl.all Char.isDigit)) ||
  -- /^ext-\d+$/
  (isPrefixB ['e', 'x', 't', '-'] s &&
    (let tl := s.drop 4; tl.length > 0 && tl.all Char.isDigit)) ||
  -- /^[a-z]+_[a-f0-9]{4,}$/i
  letterSepRun '_' isHexDigit 4 s

/-! ## The stable-class specificity sort

`Array.prototype.sort` is stable; a consistent comparator therefore
yields the stable sort by the comparator's weak order, modelled as a
stable insertion sort with "should not come after" as the order. -/
def insertLe {α : Type} (le : α → α → Bool) (x : α) : List α → List α
  | [] => [x]
  | y :: ys => if le x y then x :: y :: ys else y :: insertLe le x ys

def sortStable {α : Type} (le : α → α → Bool) : List α → List α
  | [] => []
  | x :: xs => insertLe le x (sortStable le xs)

/-- Comparator of `getTextSelector`/`getRoleWithName`: classes containing
a hyphen sort first, ties broken by longer class name. `le a b` means the
comparator does not place `a` after `b`. -/
def specificityLe (a b : String) : Bool :=
  let aMod := strHas a '-'
  let bMod := strHas b '-'
  if aMod ∧ ¬bMod then true
  else if ¬aMod ∧ bMod then false
  else b.length ≤ a.length

/-- Comparator of `getStableClassSelector`: same, but `ng-`/`sc-`
prefixed classes do not count as having a modifier. -/
def classSpecificityLe (a b : String) : Bool :=
  let aMod := strHas a '-' && !(isPrefixB "ng-".toList a.toList) && !(isPrefixB "sc-".toList a.toList)
  let bMod := strHas b '-' && !(isPrefixB "ng-".toList b.toList) && !(isPrefixB "sc-".toList b.toList)
  if aMod ∧ ¬bMod then true
  else if ¬aMod ∧ bMod then false
  else b.length ≤ a.length

/-! ## `CSS.escape` (CSSOM serialize-an-identifier), used only when
rendering selectors back to strings -/
def hexDigits (n : Nat) : List Char := Nat.toDigits 16 n

def cssHexEscape (c : Char) : List Char :=
  '\\' :: hexDigits c.toNat ++ [' ']

def cssEscapeChar (len : Nat) (first : Char) (i : Nat) (c : Char) : List Char :=
  if c = Char.ofNat 0 then [Char.ofNat 0xFFFD]
  else if (1 ≤ c.toNat ∧ c.toNat ≤ 0x1f) ∨ c.toNat = 0x7f then cssHexEscape c
  else if i = 0 ∧ c.isDigit then cssHexEscape c
  else if i = 1 ∧ c.isDigit ∧ first = '-' then cssHexEscape c
  else if i = 0 ∧ c = '-' ∧ len = 1 then ['\\', '-']
  else if c.toNat ≥ 0x80 ∨ c = '-' ∨ c = '_' ∨ c.isDigit ∨ isAsciiLetter c then [c]
  else ['\\', c]

def cssEscape (s : String) : String :=
  let cs := s.toList
  let first := cs.headD ' '
  String.mk ((cs.enum.map (fun p => cssEscapeChar cs.length first p.1 p.2)).flatten)

/-- Model of `escapeAttributeValue`: backslash, double quote and newline escaped. -/
def escAttrChar (c : Char) : List Char :=
  if c = '\\' then ['\\', '\\']
  else if c = '"' then ['\\', '"']
  else if c = '\n' then ['\\', 'n']
  else [c]

def escapeAttributeValue (s : String) : String :=
  String.mk ((s.toList.map escAttrChar).flatten)

/-- Model of `escapeTextForContains`: backslash and double quote escaped, then
trimmed. -/
def escContainsChar (c : Char) : List Char :=
  if c = '\\' then ['\\', '\\']
  else if c = '"' then ['\\', '"']
  else [c]

def escapeTextForContains (s : String) : String :=
  jsTrim (String.mk ((s.toList.map escContainsChar).flatten))

/-- Model of `document.getElementById`: first element carrying the id. -/
def getElementById (doc : Node) (idv : String) : Option Node :=
  (doc.allElems).find? (fun e => e.getAttr "id" = some idv)

/-- The element the query `document.querySelector('label[for="id"]')`
finds when the interpolated id embeds literally. The id is interpolated
raw and the call is not guarded by any try/catch, so for an id that does
not embed literally the query can instead throw an uncaught SyntaxError;
that error path is modelled by `accessibleNameUnsafe` below, and this
function gives the query's value only on its non-throwing domain. -/
def getLabelFor (doc : Node) (idv : String) : Option Node :=
  (doc.allElems).find? (fun e => e.tag = "label" ∧ e.getAttr "for" = some idv)

/-- The static tag→role table of `getImplicitRole`. -/
def getImplicitRole (e : Node) : Option String :=
  let type := e.getAttr "type"
  match e.tag with
  | "button" => some "button"
  | "a" => some "link"
  | "input" =>
      some (if type = some "submit" ∨ type = some "button" then "button"
        else if type = some "checkbox" then "checkbox"
        else if type = some "radio" then "radio"
        else if type = some "search" then "searchbox" else "textbox")
  | "select" => some "combobox"
  | "textarea" => some "textbox"
  | "img" => some "img"
  | "nav" => some "navigation"
  | "main" => some "main"
  | "header" => some "banner"
  | "footer" => some "contentinfo"
  | "aside" => some "complementary"
  | "article" => some "article"
  | "section" => some "region"
  | "form" => some "form"
  | "table" => some "table"
  | "ul" => some "list"
  | "ol" => some "list"
  | "li" => some "listitem"
  | _ => none

def trimToOpt (s : String) : Option String :=
  if jsTrim s = "" then none else some (jsTrim s)

/-- Model of `getAccessibleName` on its non-throwing domain: aria-label,
then aria-labelledby, then (for form controls) the associated
`<label for=…>`, then direct text content. The label lookup interpolates
the element id raw into a `label[for="…"]` query with no try/catch
around it, so for form-control ids that do not embed literally the
source can instead raise an uncaught SyntaxError; that error path is
modelled separately by `accessibleNameUnsafe`. -/
def getAccessibleName (doc : Node) (e : Node) : Option String :=
  match truthy (e.getAttr "aria-label") with
  | some l => some l
  | none =>
    match
      (match truthy (e.getAttr "aria-labelledby") with
       | some ref =>
           match getElementById doc ref with
           | some lab => some (trimToOpt lab.textContent)
           | none => none
       | none => none) with
    | some r => r
    | none =>
      match
        (if e.tag = "input" ∨ e.tag = "select" ∨ e.tag = "textarea" then
           match truthy (e.getAttr "id") with
           | some idv =>
               match getLabelFor doc idv with
               | some lab => some (trimToOpt lab.textContent)
               | none => none
           | none => none
         else none) with
      | some r => r
      | none => trimToOpt e.directText

/-- The unguarded error path of `getAccessibleName`: the
`document.querySelector` call on the `label[for="…"]` selector is
reached — the element is a form control with a truthy id, after the
aria-label branch and the aria-labelledby lookup both fall through —
with an id that does not embed literally in the double-quoted CSS
string. The raw interpolation then either throws a SyntaxError that no
handler catches (an id containing a double quote or newline ends the
string early, typically leaving unparseable text), or denotes a
different selector (a backslash starts an escape sequence); the
predicate over-approximates the throw by flagging every non-literal id,
and `getAccessibleName` is faithful wherever it is false. -/
def accessibleNameUnsafe (doc : Node) (e : Node) : Bool :=
  (truthy (e.getAttr "aria-label")).isNone &&
  (match truthy (e.getAttr "aria-labelledby") with
   | some ref => (getElementById doc ref).isNone
   | none => true) &&
  decide (e.tag = "input" ∨ e.tag = "select" ∨ e.tag = "textarea") &&
  (match truthy (e.getAttr "id") with
   | some idv => !rawValueLiteral idv
   | none => false)

/-- The throw condition of `generate`: the strategy loop runs every
generator unconditionally (it never breaks after a success), and
`getRoleWithName` — the only generator containing an unguarded
`document.querySelector` — calls `getAccessibleName` whenever the
element carries an explicit or implicit role. `generate` can therefore
raise an uncaught SyntaxError exactly when the element at `loc` has a
role and `accessibleNameUnsafe` holds, regardless of whether an earlier
strategy already produced a unique selector. -/
def generateUnsafe (doc : Node) (loc : Loc) : Bool :=
  match doc.nodeAt loc with
  | none => false
  | some e =>
    match (truthy (e.getAttr "role")).orElse (fun _ => getImplicitRole e) with
    | none => false
    | some _ => accessibleNameUnsafe doc e

def getDataTestId (doc : Node) (loc : Loc) : Option Sel :=
  match doc.nodeAt loc with
  | none => none
  | some e => (truthy (e.getAttr "data-testid")).map (fun v => Sel.attr "data-testid" v)

def getDataCy (doc : Node) (loc : Loc) : Option Sel :=
  match doc.nodeAt loc with
  | none => none
  | some e => (truthy (e.getAttr "data-cy")).map (fun v => Sel.attr "data-cy" v)

def getDataTest (doc : Node) (loc : Loc) : Option Sel :=
  match doc.nodeAt loc with
  | none => none
  | some e => (truthy (e.getAttr "data-test")).map (fun v => Sel.attr "data-test" v)

def getAriaLabel (doc : Node) (loc : Loc) : Option Sel :=
  match doc.nodeAt loc with
  | none => none
  | some e => (truthy (e.getAttr "aria-label")).map (fun v => Sel.attrEscaped "aria-label" (escapeAttributeValue v))

/-- Model of `getRoleWithName`: explicit or implicit role; then role+aria-label,
role+text, role+class+text, role+class, role alone — first unique wins. -/
def getRoleWithName (pats : List String) (doc : Node) (loc : Loc) : Option Sel :=
  match doc.nodeAt loc with
  | none => none
  | some e =>
    match (truthy (e.getAttr "role")).orElse (fun _ => getImplicitRole e) with
    | none => none
    | some role =>
      let roleAlone :=
        (let s := Sel.roleOnly role; if isUniqueB doc s then some s else none)
      match getAccessibleName doc e with
      | none => roleAlone
      | some nm =>
        let sel1 := Sel.roleLabel role (escapeAttributeValue nm)
        if isUniqueB doc sel1 then some sel1
        else
          let escText := escapeTextForContains (strTake nm 30)
          let sel2 := Sel.containsSel (Sel.roleOnly role) escText
          if isUniqueB doc sel2 then some sel2
          else
            let stable := e.classList.filter (fun c => !isFrameworkClass pats c)
            let sorted := sortStable specificityLe stable
            match (sorted.map (fun c => Sel.containsSel (Sel.roleClass role c) escText)).find? (isUniqueB doc) with
            | some s => some s
            | none =>
              match (sorted.map (fun c => Sel.roleClass role c)).find? (isUniqueB doc) with
              | some s => some s
              | none => roleAlone

/-- Model of `getUniqueId`: skip dynamic-looking ids, then require uniqueness. -/
def getUniqueId (doc : Node) (loc : Loc) : Option Sel :=
  match doc.nodeAt loc with
  | none => none
  | some e =>
    let idv := (e.getAttr "id").getD ""
    if idv = "" then none
    else if isDynamicId idv then none
    else
      let s := Sel.hashId idv
      if isUniqueB doc s then some s else none

def textSelectorTags : List String :=
  ["button", "a", "label", "span", "h1", "h2", "h3", "h4", "h5", "h6"]

/-- Model of `getTextSelector`: direct text of interactive/heading elements, at
most 50 characters, as `tag:contains("…")`, disambiguated by a stable
class when the text alone is not unique. -/
def getTextSelector (pats : List String) (doc : Node) (loc : Loc) : Option Sel :=
  match doc.nodeAt loc with
  | none => none
  | some e =>
    if textSelectorTags.contains e.tag then
      match trimToOpt e.directText with
      | none => none
      | some t =>
        if t.length > 50 then none
        else
          let esc := escapeTextForContains t
          let textOnly := Sel.containsSel (Sel.tagClasses e.tag []) esc
          if isUniqueB doc textOnly then some textOnly
          else
            let stable := e.classList.filter (fun c => !isFrameworkClass pats c)
            let sorted := sortStable specificityLe stable
            (sorted.map (fun c => Sel.containsSel (Sel.tagClasses e.tag [c]) esc)).find? (isUniqueB doc)
    else none

/-- Model of `getStableClassSelector`: non-framework classes sorted by
specificity, tried singly, then in pairs (bounded indices), then the
first three together. -/
def getStableClassSelector (pats : List String) (doc : Node) (loc : Loc) : Option Sel :=
  match doc.nodeAt loc with
  | none => none
  | some e =>
    if e.classList = [] then none
    else
      let stable := e.classList.filter (fun c => !isFrameworkClass pats c)
      if stable = [] then none
      else
        let sorted := sortStable classSpecificityLe stable
        match (sorted.map (fun c => Sel.tagClasses e.tag [c])).find? (isUniqueB doc) with
        | some s => some s
        | none =>
          if sorted.length ≥ 2 then
            let k1 := min sorted.length 3
            let k2 := min sorted.length 4
            let pairs := (List.range k1).flatMap (fun i =>
              ((List.range k2).drop (i + 1)).map (fun j =>
                Sel.tagClasses e.tag [sorted.getD i "", sorted.getD j ""]))
            match pairs.find? (isUniqueB doc) with
            | some s => some s
            | none =>
              if sorted.length ≥ 3 then
                let s := Sel.tagClasses e.tag (sorted.take 3)
                if isUniqueB doc s then some s else none
              else none
          else none

/-- The `getCssPath` while-loop: climb from the element while the current
node is not `document.body` and fewer than `maxDepth = 5` levels were
emitted, emitting `tag:nth-of-type(i)` when the parent has several
same-tag element children and the bare tag otherwise. -/
def cssPathParts (doc : Node) : Nat → Loc → List PathPart
  | 0, _ => []
  | fuel + 1, loc =>
      match doc.nodeAt loc with
      | none => []
      | some e =>
          if some loc = bodyLoc doc then []
          else
            match loc with
            | [] => [PathPart.plain e.tag]
            | _ =>
                let sameTag := (siblingsOf doc loc).countP (fun s => s.tag = e.tag)
                let part :=
                  if sameTag > 1 then PathPart.nthOfType e.tag (nthOfTypeIndex doc loc)
                  else PathPart.plain e.tag
                cssPathParts doc fuel loc.dropLast ++ [part]

def getCssPath (doc : Node) (loc : Loc) : Option Sel :=
  match cssPathParts doc 5 loc with
  | [] => none
  | p :: ps =>
      let s := Sel.pathSel (p :: ps)
      if isUniqueB doc s then some s else none

/-- The `buildFallbackPath` while-loop: climb from the element to (but
excluding) `document.documentElement`, emitting `tag:nth-child(i)` at
every level; the fuel `loc.length` covers the whole climb. -/
def fallbackParts (doc : Node) : Nat → Loc → List PathPart
  | 0, _ => []
  | fuel + 1, loc =>
      match doc.nodeAt loc with
      | none => []
      | some e =>
          match loc with
          | [] => []
          | _ => fallbackParts doc fuel loc.dropLast ++ [PathPart.nthChild e.tag (childIndexOf loc + 1)]

def buildFallbackPath (doc : Node) (loc : Loc) : Sel :=
  Sel.pathSel (fallbackParts doc loc.length loc)

inductive Strategy where
  | dataTestid | dataCy | dataTest | ariaLabel | role | id | text | cssClass | cssPath
deriving Repr, DecidableEq

structure AltSel where
  selector : Sel
  strategy : Strategy
  confidence : Nat
deriving Repr, DecidableEq

structure SelectorResult where
  selector : Sel
  strategy : Strategy
  confidence : Nat
  isUnique : Bool
  alternatives : List AltSel
deriving Repr, DecidableEq

def runStrategy (pats : List String) (doc : Node) (loc : Loc) : Strategy → Option Sel
  | .dataTestid => getDataTestId doc loc
  | .dataCy => getDataCy doc loc
  | .dataTest => getDataTest doc loc
  | .ariaLabel => getAriaLabel doc loc
  | .role => getRoleWithName pats doc loc
  | .id => getUniqueId doc loc
  | .text => getTextSelector pats doc loc
  | .cssClass => getStableClassSelector pats doc loc
  | .cssPath => getCssPath doc loc

/-- The fixed priority order of the strategy table in `generate`,
with the static confidence weight of each strategy. -/
def strategyOrder : List (Strategy × Nat) :=
  [(.dataTestid, 100), (.dataCy, 100), (.dataTest, 100),
   (.ariaLabel, 95), (.role, 90), (.id, 85), (.text, 80),
   (.cssClass, 60), (.cssPath, 40)]

/-- The strategy loop of `generate`: the candidates that were generated
and found unique, in priority order. The first becomes `bestResult`, the
rest are pushed onto `alternatives`. -/
def successes (pats : List String) (doc : Node) (loc : Loc) : List AltSel :=
  strategyOrder.filterMap (fun sc =>
    match runStrategy pats doc loc sc.1 with
    | some s => if isUniqueB doc s then some ⟨s, sc.1, sc.2⟩ else none
    | none => none)

/-- Model of `SelectorGenerator.generate`. -/
def generate (pats : List String) (doc : Node) (loc : Loc) : SelectorResult :=
  match successes pats doc loc with
  | first :: rest =>
      { selector := first.selector, strategy := first.strategy,
        confidence := first.confidence, isUnique := true,
        alternatives := rest.take 5 }
  | [] =>
      let cssPath :=
        match getCssPath doc loc with
        | some s => s
        | none => buildFallbackPath doc loc
      { selector := cssPath, strategy := .cssPath, confidence := 30,
        isUnique := isUniqueB doc cssPath, alternatives := [] }

def renderPart : PathPart → String
  | .plain t => t
  | .nthOfType t k => t ++ ":nth-of-type(" ++ toString k ++ ")"
  | .nthChild t k => t ++ ":nth-child(" ++ toString k ++ ")"

def render : Sel → String
  | .attr name value => "[" ++ name ++ "=\"" ++ value ++ "\"]"
  | .attrEscaped name value => "[" ++ name ++ "=\"" ++ value ++ "\"]"
  | .roleLabel role label => "[role=\"" ++ role ++ "\"][aria-label=\"" ++ label ++ "\"]"
  | .hashId i => "#" ++ cssEscape i
  | .tagClasses t cs => t ++ String.join (cs.map (fun c => "." ++ cssEscape c))
  | .roleClass role c => "[role=\"" ++ role ++ "\"]." ++ cssEscape c
  | .containsSel b txt => render b ++ ":contains(\"" ++ txt ++ "\")"
  | .roleOnly role => "[role=\"" ++ role ++ "\"]"
  | .pathSel parts => String.intercalate " > " (parts.map renderPart)

structure PageFeatures where
  hasPasswordField : Bool
  hasEmailField : Bool
  hasSearchInput : Bool
  hasTable : Bool
  hasList : Bool
  formFieldCount : Nat
  hasConfirmPassword : Bool
  hasTextarea : Bool
  hasResultsContainer : Bool
  hasSingleH1 : Bool
  hasMainContent : Bool
  hasImages : Bool
deriving Repr, DecidableEq

inductive PageType where
  | loginForm | registrationForm | contactForm | search | table | list | detail | generic
deriving Repr, DecidableEq

def strToLower (s : String) : String := String.mk (s.toList.map Char.toLower)

/-- Probe `[name*="sub"]`: attribute present and containing the substring. -/
def attrContains (e : Node) (name sub : String) : Bool :=
  match e.getAttr name with
  | some v => strIncludes v sub
  | none => false

/-- Probe `[name*="sub" i]`: the case-insensitive variant. -/
def attrContainsCI (e : Node) (name sub : String) : Bool :=
  match e.getAttr name with
  | some v => strIncludes (strToLower v) (strToLower sub)
  | none => false

def isInput (e : Node) : Bool := e.tag = "input"

/-- Probe `input[type="email"], input[name*="email"], input[id*="email"],
input[autocomplete="email"]`. -/
def isEmailField (e : Node) : Bool :=
  isInput e &&
    (e.getAttr "type" = some "email" || attrContains e "name" "email" ||
     attrContains e "id" "email" || e.getAttr "autocomplete" = some "email")

/-- The five confirm-password probe selectors. -/
def isConfirmField (e : Node) : Bool :=
  isInput e &&
    (attrContains e "name" "confirm" || attrContains e "name" "password2" ||
     attrContains e "name" "password_confirm" || attrContains e "id" "confirm" ||
     attrContainsCI e "placeholder" "confirm")

/-- The `input[...]` alternatives of the search-input probe. -/
def isSearchInputEl (e : Node) : Bool :=
  isInput e &&
    (e.getAttr "type" = some "search" || attrContains e "name" "search" ||
     attrContains e "id" "search" || attrContainsCI e "placeholder" "search" ||
     attrContainsCI e "aria-label" "search")

/-- Probe `[role="search"] input`: an input with a proper ancestor carrying
`role="search"`. -/
def inputUnderRoleSearch (doc : Node) : Bool :=
  doc.subtreeLocs.any (fun l =>
    (match doc.nodeAt l with | some e => isInput e | none => false) &&
      (l.inits.dropLast).any (fun p =>
        match doc.nodeAt p with
        | some a => a.getAttr "role" = some "search"
        | none => false))

/-- The results-container probe selectors. -/
def isResultsContainer (e : Node) : Bool :=
  attrContains e "class" "result" || attrContains e "id" "result" ||
    attrContains e "class" "search-result" || attrContainsCI e "aria-label" "result" ||
    e.getAttr "role" = some "list"

/-- Model of `isDataTable`: has header cells, more than one row, and its `role`
is neither `presentation` nor `none`. -/
def isDataTable (t : Node) : Bool :=
  let hasHeaders := t.descendants.any (fun d => d.tag = "th")
  let hasMultipleRows := t.descendants.countP (fun d => d.tag = "tr") > 1
  let isLayoutTable := t.getAttr "role" = some "presentation" || t.getAttr "role" = some "none"
  hasHeaders && hasMultipleRows && !isLayoutTable

/-- The list-container probe selectors. -/
def isListContainer (e : Node) : Bool :=
  attrContains e "class" "grid" || attrContains e "class" "list" ||
    attrContains e "class" "card" || e.getAttr "role" = some "list" ||
    ((e.tag = "ul" || e.tag = "ol") && (e.getAttr "class").isSome)

def natDist (a b : Nat) : Nat := max a b - min a b

/-- Model of `hasRepeatingElements` on a single container: at least three element
children, and more than half of the non-first children share the first
child's tag with a class-count difference of at most two. -/
def containerRepeats (c : Node) : Bool :=
  let ch := c.elemChildren
  if ch.length < 3 then false
  else
    match ch with
    | [] => false
    | first :: rest =>
        let similar := rest.countP (fun x =>
          x.tag = first.tag && natDist x.classList.length first.classList.length ≤ 2)
        2 * similar > rest.length

def hasRepeatingElements (cs : List Node) : Bool := cs.any containerRepeats

def isFormField (e : Node) : Bool :=
  e.tag = "input" || e.tag = "select" || e.tag = "textarea"

/-- Model of `PageAnalyzer.detectFeatures`. -/
def detectFeatures (doc : Node) : PageFeatures :=
  let els := doc.allElems
  let inputs := els.filter isInput
  let forms := els.filter (fun e => e.tag = "form")
  let tables := els.filter (fun e => e.tag = "table")
  let fromForms := forms.foldl (fun acc f => acc + f.descendants.countP isFormField) 0
  { hasPasswordField := els.any (fun e => isInput e && e.getAttr "type" = some "password"),
    hasEmailField := els.any isEmailField,
    hasSearchInput :=
      els.any isSearchInputEl || els.any (fun e => e.getAttr "role" = some "searchbox") ||
        inputUnderRoleSearch doc,
    hasTable := (match tables.head? with | some t => isDataTable t | none => false),
    hasList := hasRepeatingElements (els.filter isListContainer),
    formFieldCount := if fromForms = 0 then inputs.length else fromForms,
    hasConfirmPassword := els.any isConfirmField,
    hasTextarea := els.any (fun e => e.tag = "textarea"),
    hasResultsContainer := els.any isResultsContainer,
    hasSingleH1 := els.countP (fun e => e.tag = "h1") == 1,
    hasMainContent := els.any (fun e =>
      e.tag = "main" || e.getAttr "role" = some "main" || e.tag = "article" ||
        e.classList.contains "content" || e.getAttr "id" = some "content"),
    hasImages := els.any (fun e =>
      e.tag = "img" || e.tag = "picture" || e.getAttr "role" = some "img") }

/-- Model of `PageAnalyzer.classifyPage`: the strict ordered decision list. -/
def classifyPage (f : PageFeatures) : PageType :=
  if f.hasPasswordField && !f.hasConfirmPassword && decide (f.formFieldCount ≤ 4) then .loginForm
  else if f.hasPasswordField && f.hasConfirmPassword && decide (f.formFieldCount > 4) then .registrationForm
  else if f.hasEmailField && f.hasTextarea && !f.hasPasswordField then .contactForm
  else if f.hasSearchInput && f.hasResultsContainer then .search
  else if f.hasTable then .table
  else if f.hasList then .list
  else if f.hasSingleH1 && f.hasMainContent then .detail
  else .generic

/-- Model of `PageAnalyzer.calculateConfidence`: baseline 50, fixed per-signal
increments for the matched type, `generic` pinned to 30, capped at 100. -/
def calculateConfidence (pt : PageType) (f : PageFeatures) : Nat :=
  let confidence : Nat :=
    match pt with
    | .loginForm =>
        50 + (if f.hasPasswordField then 25 else 0) + (if f.hasEmailField then 15 else 0) +
          (if f.formFieldCount ≤ 4 then 10 else 0)
    | .registrationForm =>
        50 + (if f.hasPasswordField then 20 else 0) + (if f.hasConfirmPassword then 25 else 0) +
          (if f.formFieldCount > 4 then 5 else 0)
    | .contactForm =>
        50 + (if f.hasEmailField then 20 else 0) + (if f.hasTextarea then 20 else 0) +
          (if !f.hasPasswordField then 10 else 0)
    | .search =>
        50 + (if f.hasSearchInput then 25 else 0) + (if f.hasResultsContainer then 25 else 0)
    | .table => 50 + (if f.hasTable then 40 else 0)
    | .list => 50 + (if f.hasList then 35 else 0)
    | .detail =>
        50 + (if f.hasSingleH1 then 20 else 0) + (if f.hasMainContent then 15 else 0) +
          (if f.hasImages then 10 else 0)
    | .generic => 30
  min 100 confidence

/-- Model of `analyze`: classification of the current document. -/
def classifyDoc (doc : Node) : PageType := classifyPage (detectFeatures doc)

/-- The confidence reported by `analyze` for the current document. -/
def confidenceDoc (doc : Node) : Nat :=
  calculateConfidence (classifyDoc doc) (detectFeatures doc)

/-- A login form whose email field is named `confirm_email`: it satisfies
the literal premise of the login-form scenario but trips the
confirm-password probe. -/
def docLoginConfirm : Node :=
  .el "html" [] [
    .el "body" [] [
      .el "form" [] [
        .el "input" [("type", "password"), ("name", "p")] [],
        .el "input" [("type", "email"), ("name", "confirm_email")] [],
        .el "button" [("type", "submit")] [.text "Log in"]]]]

/-- A plain login form: one password field, one email field, a submit
button, two form fields. -/
def docLoginOk : Node :=
  .el "html" [] [
    .el "body" [] [
      .el "form" [] [
        .el "input" [("type", "password"), ("name", "p")] [],
        .el "input" [("type", "email"), ("name", "email")] [],
        .el "button" [("type", "submit")] [.text "Log in"]]]]

/-- First table is a layout table (`role="presentation"`), second is a
qualifying data table. -/
def docTwoTables : Node :=
  .el "html" [] [
    .el "body" [] [
      .el "table" [("role", "presentation")] [
        .el "tr" [] [.el "th" [] [.text "H"]],
        .el "tr" [] [.el "td" [] [.text "x"]]],
      .el "table" [] [
        .el "tr" [] [.el "th" [] [.text "A"]],
        .el "tr" [] [.el "td" [] [.text "1"]]]]]

/-- A single qualifying data table. -/
def docTableOk : Node :=
  .el "html" [] [
    .el "body" [] [
      .el "table" [] [
        .el "tr" [] [.el "th" [] [.text "A"]],
        .el "tr" [] [.el "td" [] [.text "1"]]]]]

/-- The all-false feature vector. -/
def featNone : PageFeatures :=
  { hasPasswordField := false, hasEmailField := false, hasSearchInput := false,
    hasTable := false, hasList := false, formFieldCount := 0,
    hasConfirmPassword := false, hasTextarea := false, hasResultsContainer := false,
    hasSingleH1 := false, hasMainContent := false, hasImages := false }

/-- The per-strategy static confidence weight, read off the strategy
table of `generate`. -/
def staticWeight (st : Strategy) : Nat :=
  ((strategyOrder.find? (fun sc => sc.1 = st)).map (fun sc => sc.2)).getD 0

/-- A button with a `data-testid`, unique text and a sibling `div`. -/
def docW : Node :=
  .el "html" [] [
    .el "body" [] [
      .el "button" [("data-testid", "save")] [.text "Save"],
      .el "div" [] []]]

/-- A paragraph: every strategy fails except the in-loop css path. -/
def docP : Node := .el "html" [] [.el "body" [] [.el "p" [] [.text "hi"]]]

/-- A head/body document; on `body` even the in-loop css path fails and
the fallback `nth-child` path is taken. -/
def docB : Node := .el "html" [] [.el "head" [] [], .el "body" [] []]

/-- A button whose `data-testid` is the empty string. -/
def docEmptyTestId : Node :=
  .el "html" [] [.el "body" [] [.el "button" [("data-testid", "")] []]]

/-- The C8 scenario document: a button with only a framework-generated
`ng-*` class and the unique text `Save`, next to another button. -/
def docC8 : Node :=
  .el "html" [] [
    .el "body" [] [
      .el "button" [("class", "ng-abc123")] [.text "Save"],
      .el "button" [] [.text "Cancel"]]]

/-- Document wellformedness: the root is an element and every element in
the tree has a nonempty tag name (guaranteed by the DOM: `createElement`
rejects an empty name). -/
def Node.tagsNonempty : Node → Bool
  | .text _ => false
  | .el t _ cs => decide (t ≠ "") && go cs
where go : List Node → Bool
  | [] => true
  | .text _ :: cs => go cs
  | .el t a c :: cs => (Node.el t a c).tagsNonempty && go cs

/-- A path level whose rendering is nonempty. -/
def partSafe : PathPart → Bool
  | .plain t => decide (t ≠ "")
  | .nthOfType _ _ => true
  | .nthChild _ _ => true

/-- Selector shapes whose rendering is a nonempty string. -/
def renderSafe : Sel → Bool
  | .attr _ _ => true
  | .attrEscaped _ _ => true
  | .roleLabel _ _ => true
  | .hashId _ => true
  | .tagClasses _ cs => !cs.isEmpty
  | .roleClass _ _ => true
  | .containsSel _ _ => true
  | .roleOnly _ => true
  | .pathSel parts => !parts.isEmpty && parts.all partSafe

/-- A document with a second, nested `html` element: the root's css path
is not unique and the fallback path at the root is the empty string. -/
def docNestedRoot : Node := .el "html" [] [.el "body" [] [.el "html" [] []]]

/-- A button whose `data-testid` value contains a double quote: the raw
interpolation yields the broken selector `[data-testid="a"b"]`, on which
`querySelectorAll` throws inside `isUnique` (caught, reported
non-unique), so the strategy is skipped even though the value is unique
in the document. A button has no `label[for]` lookup, so `generate`
itself does not throw on this element. -/
def docQuoteTestId : Node :=
  .el "html" [] [.el "body" [] [.el "button" [("data-testid", "a\"b")] []]]

/-- An input whose id contains a double quote: `getAccessibleName`
reaches the query `document.querySelector('label[for="a"b"]')`, which
throws a SyntaxError that nothing catches. -/
def docThrowInput : Node :=
  .el "html" [] [.el "body" [] [.el "input" [("id", "a\"b")] []]]

/-! ## Theorems -/

theorem isUniqueB_eq_one (doc : Node) (sel : Sel) :
    isUniqueB doc sel = true ↔ resolveCount doc sel = 1 := by
  cases sel with
  | containsSel base txt =>
      by_cases h : containsParseFails txt = true <;>
        simp [isUniqueB, resolveCount, h]
  | attr n v => simp [isUniqueB, resolveCount]
  | attrEscaped n v => simp [isUniqueB, resolveCount]
  | roleLabel r l => simp [isUniqueB, resolveCount]
  | hashId i => simp [isUniqueB, resolveCount]
  | tagClasses t cs => simp [isUniqueB, resolveCount]
  | roleClass r c => simp [isUniqueB, resolveCount]
  | roleOnly r => simp [isUniqueB, resolveCount]
  | pathSel ps => simp [isUniqueB, resolveCount]

/-- The classified type's rule preconditions force the per-type
increments: helper bounds for the confidence computation. -/
theorem conf_ge30 (pt : PageType) (f : PageFeatures) : 30 ≤ calculateConfidence pt f := by
  cases pt <;> simp only [calculateConfidence] <;>
    refine Nat.le_min.mpr ⟨by norm_num, ?_⟩ <;> omega

theorem conf_le100 (pt : PageType) (f : PageFeatures) : calculateConfidence pt f ≤ 100 := by
  simp only [calculateConfidence]
  exact Nat.min_le_left _ _

theorem conf_login85 (f : PageFeatures) (hp : f.hasPasswordField = true)
    (hcnt : f.formFieldCount ≤ 4) : 85 ≤ calculateConfidence PageType.loginForm f := by
  simp only [calculateConfidence]
  rw [if_pos hcnt]
  simp [hp]

theorem conf_reg85 (f : PageFeatures) (hp : f.hasPasswordField = true)
    (hc : f.hasConfirmPassword = true) (hcnt : f.formFieldCount > 4) :
    85 ≤ calculateConfidence PageType.registrationForm f := by
  simp only [calculateConfidence]
  rw [if_pos hcnt]
  simp [hp, hc]

theorem conf_contact85 (f : PageFeatures) (he : f.hasEmailField = true)
    (ht : f.hasTextarea = true) (hp : f.hasPasswordField = false) :
    85 ≤ calculateConfidence PageType.contactForm f := by
  simp only [calculateConfidence]
  simp [he, ht, hp]

theorem conf_search85 (f : PageFeatures) (hs : f.hasSearchInput = true)
    (hr : f.hasResultsContainer = true) :
    85 ≤ calculateConfidence PageType.search f := by
  simp only [calculateConfidence]
  simp [hs, hr]

theorem conf_table85 (f : PageFeatures) (ht : f.hasTable = true) :
    85 ≤ calculateConfidence PageType.table f := by
  simp only [calculateConfidence]
  simp [ht]

theorem conf_list85 (f : PageFeatures) (hl : f.hasList = true) :
    85 ≤ calculateConfidence PageType.list f := by
  simp only [calculateConfidence]
  simp [hl]

theorem conf_detail85 (f : PageFeatures) (h1 : f.hasSingleH1 = true)
    (hm : f.hasMainContent = true) :
    85 ≤ calculateConfidence PageType.detail f := by
  simp only [calculateConfidence]
  simp [h1, hm]

theorem conf_ge85 (f : PageFeatures) (hg : classifyPage f ≠ PageType.generic) :
    85 ≤ calculateConfidence (classifyPage f) f := by
  unfold classifyPage at hg ⊢
  by_cases hc1 : (f.hasPasswordField && !f.hasConfirmPassword && decide (f.formFieldCount ≤ 4)) = true
  · rw [if_pos hc1]
    simp only [Bool.and_eq_true, Bool.not_eq_true', decide_eq_true_eq] at hc1
    exact conf_login85 f hc1.1.1 hc1.2
  · rw [if_neg hc1] at hg ⊢
    by_cases hc2 : (f.hasPasswordField && f.hasConfirmPassword && decide (f.formFieldCount > 4)) = true
    · rw [if_pos hc2]
      simp only [Bool.and_eq_true, decide_eq_true_eq] at hc2
      exact conf_reg85 f hc2.1.1 hc2.1.2 hc2.2
    · rw [if_neg hc2] at hg ⊢
      by_cases hc3 : (f.hasEmailField && f.hasTextarea && !f.hasPasswordField) = true
      · rw [if_pos hc3]
        simp only [Bool.and_eq_true, Bool.not_eq_true'] at hc3
        exact conf_contact85 f hc3.1.1 hc3.1.2 hc3.2
      · rw [if_neg hc3] at hg ⊢
        by_cases hc4 : (f.hasSearchInput && f.hasResultsContainer) = true
        · rw [if_pos hc4]
          simp only [Bool.and_eq_true] at hc4
          exact conf_search85 f hc4.1 hc4.2
        · rw [if_neg hc4] at hg ⊢
          by_cases hc5 : f.hasTable = true
          · rw [if_pos hc5]
            exact conf_table85 f hc5
          · rw [if_neg hc5] at hg ⊢
            by_cases hc6 : f.hasList = true
            · rw [if_pos hc6]
              exact conf_list85 f hc6
            · rw [if_neg hc6] at hg ⊢
              by_cases hc7 : (f.hasSingleH1 && f.hasMainContent) = true
              · rw [if_pos hc7]
                simp only [Bool.and_eq_true] at hc7
                exact conf_detail85 f hc7.1 hc7.2
              · rw [if_neg hc7] at hg
                exact absurd rfl hg

theorem conf_generic30 (f : PageFeatures) (hg : classifyPage f = PageType.generic) :
    calculateConfidence (classifyPage f) f = 30 := by
  rw [hg]
  simp only [calculateConfidence]
  omega

/-- C10: for every feature vector, the confidence computed for the
classified page type lies between 30 and 100 inclusive; a `generic`
classification has confidence exactly 30, and any non-generic
classification has confidence at least 85, because the matched rule's
preconditions force the corresponding increments over the baseline 50. -/
theorem classify_confidence_bounds (f : PageFeatures) :
    30 ≤ calculateConfidence (classifyPage f) f ∧
    calculateConfidence (classifyPage f) f ≤ 100 ∧
    (classifyPage f = PageType.generic → calculateConfidence (classifyPage f) f = 30) ∧
    (classifyPage f ≠ PageType.generic → 85 ≤ calculateConfidence (classifyPage f) f) :=
  ⟨conf_ge30 _ f, conf_le100 _ f, fun hg => conf_generic30 f hg, fun hg => conf_ge85 f hg⟩

/-- Witness: the all-false feature vector classifies as `generic` with
confidence exactly 30. -/
theorem classify_confidence_bounds_witness :
    classifyPage featNone = PageType.generic ∧
    calculateConfidence (classifyPage featNone) featNone = 30 :=
  ⟨by decide, (classify_confidence_bounds featNone).2.2.1 (by decide)⟩

/-- C5 counterexample: `docLoginConfirm` has exactly one password input,
exactly one email input, a submit button and form field count 2, yet is
not classified `login-form`, because the email field's name contains
`confirm` and trips the confirm-password probe. -/
theorem login_scenario_counterexample :
    ((docLoginConfirm.allElems).countP
        (fun e => isInput e && e.getAttr "type" = some "password") = 1) ∧
    ((docLoginConfirm.allElems).countP
        (fun e => isInput e && e.getAttr "type" = some "email") = 1) ∧
    ((docLoginConfirm.allElems).countP
        (fun e => e.tag = "button" && e.getAttr "type" = some "submit") = 1) ∧
    (detectFeatures docLoginConfirm).formFieldCount = 2 ∧
    classifyDoc docLoginConfirm = PageType.generic ∧
    classifyDoc docLoginConfirm ≠ PageType.loginForm := by decide

/-- C5 amended: a document with a password-typed input, an email-typed
input, form field count 2, and no input matching the confirm-password
probes classifies as `login-form` with confidence at least 90. -/
theorem login_scenario_classifies (doc : Node)
    (hp : (doc.allElems).any (fun e => isInput e && e.getAttr "type" = some "password") = true)
    (he : (doc.allElems).any (fun e => isInput e && e.getAttr "type" = some "email") = true)
    (hc : (doc.allElems).any isConfirmField = false)
    (hn : (detectFeatures doc).formFieldCount = 2) :
    classifyDoc doc = PageType.loginForm ∧ 90 ≤ confidenceDoc doc := by
  have hfp : (detectFeatures doc).hasPasswordField = true := by
    simpa [detectFeatures] using hp
  have hfc : (detectFeatures doc).hasConfirmPassword = false := by
    simpa [detectFeatures] using hc
  have hfe : (detectFeatures doc).hasEmailField = true := by
    simp only [detectFeatures]
    rw [List.any_eq_true] at he ⊢
    obtain ⟨e, hmem, hpe⟩ := he
    refine ⟨e, hmem, ?_⟩
    simp only [Bool.and_eq_true, decide_eq_true_eq] at hpe
    simp [isEmailField, hpe.1, hpe.2]
  have hcd : classifyDoc doc = PageType.loginForm := by
    unfold classifyDoc classifyPage
    simp [hfp, hfc, hn]
  refine ⟨hcd, ?_⟩
  unfold confidenceDoc
  rw [hcd]
  unfold calculateConfidence
  simp [hfp, hfe, hn]

/-- Witness for the amended C5 scenario at a concrete login form. -/
theorem login_scenario_classifies_witness :
    classifyDoc docLoginOk = PageType.loginForm ∧ 90 ≤ confidenceDoc docLoginOk :=
  login_scenario_classifies docLoginOk (by decide) (by decide) (by decide) (by decide)

/-- C6 counterexample: `docTwoTables` contains a qualifying data table
(the second one) and none of the first four rules can match (no password,
email or search features), yet it does not classify as `table`, because
only the first table in document order is tested. -/
theorem table_rule_counterexample :
    ((docTwoTables.allElems).any (fun e => e.tag = "table" && isDataTable e) = true) ∧
    (detectFeatures docTwoTables).hasPasswordField = false ∧
    (detectFeatures docTwoTables).hasEmailField = false ∧
    (detectFeatures docTwoTables).hasSearchInput = false ∧
    classifyDoc docTwoTables = PageType.generic ∧
    classifyDoc docTwoTables ≠ PageType.table := by decide

/-- C6 amended: when none of the first four rule conditions hold,
`classify` returns `table` exactly when the first `<table>` in document
order is a qualifying data table. -/
theorem table_rule_characterization (doc : Node)
    (h1 : ((detectFeatures doc).hasPasswordField && !(detectFeatures doc).hasConfirmPassword &&
        decide ((detectFeatures doc).formFieldCount ≤ 4)) = false)
    (h2 : ((detectFeatures doc).hasPasswordField && (detectFeatures doc).hasConfirmPassword &&
        decide ((detectFeatures doc).formFieldCount > 4)) = false)
    (h3 : ((detectFeatures doc).hasEmailField && (detectFeatures doc).hasTextarea &&
        !(detectFeatures doc).hasPasswordField) = false)
    (h4 : ((detectFeatures doc).hasSearchInput && (detectFeatures doc).hasResultsContainer) = false) :
    (classifyDoc doc = PageType.table ↔
      ∃ t, ((doc.allElems).filter (fun e => e.tag = "table")).head? = some t ∧
        isDataTable t = true) := by
  have htab : (detectFeatures doc).hasTable =
      (match ((doc.allElems).filter (fun e => e.tag = "table")).head? with
       | some t => isDataTable t
       | none => false) := rfl
  have key : classifyDoc doc = PageType.table ↔ (detectFeatures doc).hasTable = true := by
    unfold classifyDoc classifyPage
    rw [if_neg (by simp [h1]), if_neg (by simp [h2]), if_neg (by simp [h3]),
      if_neg (by simp [h4])]
    by_cases ht : (detectFeatures doc).hasTable = true
    · rw [if_pos ht]
      simp [ht]
    · rw [if_neg ht]
      simp only [Bool.not_eq_true] at ht
      rw [ht]
      by_cases hl : (detectFeatures doc).hasList = true
      · rw [if_pos hl]
        simp
      · rw [if_neg hl]
        by_cases hd : ((detectFeatures doc).hasSingleH1 && (detectFeatures doc).hasMainContent) = true
        · rw [if_pos hd]
          simp
        · rw [if_neg hd]
          simp
  rw [key, htab]
  cases ((doc.allElems).filter (fun e => e.tag = "table")).head? <;> simp

/-- Witness for the amended C6 characterization at a concrete document
whose only table qualifies. -/
theorem table_rule_characterization_witness :
    classifyDoc docTableOk = PageType.table ↔
      ∃ t, ((docTableOk.allElems).filter (fun e => e.tag = "table")).head? = some t ∧
        isDataTable t = true :=
  table_rule_characterization docTableOk (by decide) (by decide) (by decide) (by decide)

theorem successes_spec {pats : List String} {doc : Node} {loc : Loc} {a : AltSel}
    (ha : a ∈ successes pats doc loc) :
    isUniqueB doc a.selector = true ∧ a.confidence = staticWeight a.strategy ∧
    runStrategy pats doc loc a.strategy = some a.selector := by
  unfold successes at ha
  rw [List.mem_filterMap] at ha
  obtain ⟨sc, hmem, heq⟩ := ha
  revert heq
  cases hr : runStrategy pats doc loc sc.1 with
  | none => simp
  | some s =>
      dsimp only
      by_cases hu : isUniqueB doc s = true
      · rw [if_pos hu]
        intro heq
        cases heq
        refine ⟨hu, ?_, by simpa using hr⟩
        fin_cases hmem <;> rfl
      · rw [if_neg hu]
        simp

/-- C2: whenever the result of `generate` carries `isUnique = true`, the
returned selector resolves against the document (with the
text-containment counting procedure for `:contains` selectors) to
exactly one element; this holds for the strategy-loop result and even
for the fallback path when it is flagged unique. -/
theorem generate_unique_resolves (pats : List String) (doc : Node) (loc : Loc)
    (h : (generate pats doc loc).isUnique = true) :
    resolveCount doc (generate pats doc loc).selector = 1 := by
  unfold generate at h ⊢
  cases hs : successes pats doc loc with
  | cons first rest =>
      rw [hs] at h
      dsimp only at h ⊢
      have hm : first ∈ successes pats doc loc := by
        rw [hs]; exact List.mem_cons_self _ _
      exact (isUniqueB_eq_one doc first.selector).mp (successes_spec hm).1
  | nil =>
      rw [hs] at h
      dsimp only at h ⊢
      exact (isUniqueB_eq_one doc _).mp h

theorem generate_unique_resolves_witness :
    (generate defaultExcludedClassPatterns docW [0, 0]).isUnique = true ∧
    resolveCount docW (generate defaultExcludedClassPatterns docW [0, 0]).selector = 1 :=
  ⟨by decide, generate_unique_resolves defaultExcludedClassPatterns docW [0, 0] (by decide)⟩

theorem generate_cons_spec (pats : List String) (doc : Node) (loc : Loc)
    (first : AltSel) (rest : List AltSel) (h : successes pats doc loc = first :: rest) :
    (generate pats doc loc).selector = first.selector ∧
    (generate pats doc loc).strategy = first.strategy ∧
    (generate pats doc loc).confidence = first.confidence ∧
    (generate pats doc loc).isUnique = true ∧
    (generate pats doc loc).alternatives = rest.take 5 ∧
    ∀ a ∈ (generate pats doc loc).alternatives, a.confidence = staticWeight a.strategy := by
  unfold generate
  rw [h]
  dsimp only
  refine ⟨rfl, rfl, rfl, rfl, rfl, ?_⟩
  intro a ha
  have hmem : a ∈ successes pats doc loc := by
    rw [h]
    exact List.mem_cons_of_mem _ (List.take_subset _ _ ha)
  exact (successes_spec hmem).2.1

/-- C4: the first strategy in priority order that yields a unique
selector becomes the primary result, and the subsequent unique
candidates, at most five, become the alternatives, each carrying its own
strategy tag and static weight. -/
theorem generate_priority_order (pats : List String) (doc : Node) (loc : Loc)
    (first : AltSel) (rest : List AltSel) (h : successes pats doc loc = first :: rest) :
    (generate pats doc loc).selector = first.selector ∧
    (generate pats doc loc).strategy = first.strategy ∧
    (generate pats doc loc).confidence = first.confidence ∧
    (generate pats doc loc).isUnique = true ∧
    (generate pats doc loc).alternatives = rest.take 5 ∧
    ∀ a ∈ (generate pats doc loc).alternatives, a.confidence = staticWeight a.strategy :=
  generate_cons_spec pats doc loc first rest h

theorem generate_priority_order_witness :
    (generate defaultExcludedClassPatterns docW [0, 0]).selector = Sel.attr "data-testid" "save" ∧
    (generate defaultExcludedClassPatterns docW [0, 0]).strategy = Strategy.dataTestid ∧
    (generate defaultExcludedClassPatterns docW [0, 0]).alternatives =
      [⟨Sel.containsSel (Sel.tagClasses "button" []) "Save", Strategy.text, 80⟩,
       ⟨Sel.pathSel [PathPart.plain "button"], Strategy.cssPath, 40⟩] := by
  have h := generate_priority_order defaultExcludedClassPatterns docW [0, 0]
    ⟨Sel.attr "data-testid" "save", Strategy.dataTestid, 100⟩
    [⟨Sel.containsSel (Sel.tagClasses "button" []) "Save", Strategy.text, 80⟩,
     ⟨Sel.pathSel [PathPart.plain "button"], Strategy.cssPath, 40⟩]
    (by decide)
  exact ⟨h.1, h.2.1, by rw [h.2.2.2.2.1]; rfl⟩

/-- C9 counterexample: two `css-path`-tagged results with different
confidences — the in-loop css-path carries 40, the fallback carries 30. -/
theorem confidence_per_strategy_counterexample :
    (generate defaultExcludedClassPatterns docP [0, 0]).strategy =
      (generate defaultExcludedClassPatterns docB [1]).strategy ∧
    (generate defaultExcludedClassPatterns docP [0, 0]).confidence = 40 ∧
    (generate defaultExcludedClassPatterns docB [1]).confidence = 30 := by decide

/-- C9 amended: for results of the strategy loop (primary and
alternatives) the confidence is the static weight of the tagged strategy;
the fallback is always tagged `css-path` with confidence 30. -/
theorem confidence_per_strategy (pats : List String) (doc : Node) (loc : Loc) :
    (∀ first rest, successes pats doc loc = first :: rest →
        (generate pats doc loc).confidence = staticWeight (generate pats doc loc).strategy ∧
        ∀ a ∈ (generate pats doc loc).alternatives, a.confidence = staticWeight a.strategy) ∧
    (successes pats doc loc = [] →
        (generate pats doc loc).strategy = Strategy.cssPath ∧
        (generate pats doc loc).confidence = 30) := by
  constructor
  · intro first rest h
    have hall := generate_cons_spec pats doc loc first rest h
    refine ⟨?_, hall.2.2.2.2.2⟩
    rw [hall.2.2.1, hall.2.1]
    have hm : first ∈ successes pats doc loc := by
      rw [h]; exact List.mem_cons_self _ _
    exact (successes_spec hm).2.1
  · intro h
    unfold generate
    rw [h]
    exact ⟨rfl, rfl⟩

theorem confidence_per_strategy_witness :
    (generate defaultExcludedClassPatterns docB [1]).strategy = Strategy.cssPath ∧
    (generate defaultExcludedClassPatterns docB [1]).confidence = 30 :=
  (confidence_per_strategy defaultExcludedClassPatterns docB [1]).2 (by decide)

theorem successes_head_testid (pats : List String) (doc : Node) (loc : Loc) {s : Sel}
    (h1 : getDataTestId doc loc = some s) (h2 : isUniqueB doc s = true) :
    ∃ rest, successes pats doc loc = ⟨s, Strategy.dataTestid, 100⟩ :: rest := by
  unfold successes strategyOrder
  rw [List.filterMap_cons]
  simp only [runStrategy, h1, h2, if_true]
  exact ⟨_, rfl⟩

/-- C3 counterexample: two elements whose `data-testid` value is unique
in the document yet whose strategy is skipped. With the empty-string
value the strategy is dropped by JS falsiness; with a value containing a
double quote the raw-interpolated selector makes `querySelectorAll`
throw, `isUnique` catches and reports false. In both cases the css path
wins with confidence 40 instead of 100. -/
theorem datatestid_counterexample :
    queryCount docEmptyTestId (Sel.attr "data-testid" "") = 1 ∧
    (generate defaultExcludedClassPatterns docEmptyTestId [0, 0]).strategy = Strategy.cssPath ∧
    (generate defaultExcludedClassPatterns docEmptyTestId [0, 0]).confidence = 40 ∧
    (generate defaultExcludedClassPatterns docEmptyTestId [0, 0]).selector ≠
      Sel.attr "data-testid" "" ∧
    (docQuoteTestId.allElems).countP
      (fun e => e.getAttr "data-testid" = some "a\"b") = 1 ∧
    (generate defaultExcludedClassPatterns docQuoteTestId [0, 0]).strategy = Strategy.cssPath ∧
    (generate defaultExcludedClassPatterns docQuoteTestId [0, 0]).confidence = 40 ∧
    (generate defaultExcludedClassPatterns docQuoteTestId [0, 0]).selector ≠
      Sel.attr "data-testid" "a\"b" := by decide

/-- C3 amended: for every element with a `data-testid` value that is
non-empty, embeds literally in the raw-interpolated selector (contains
no double quote, backslash or newline) and is unique in the document,
and on which `generate` does not reach its unguarded label-lookup error
path, `generate` returns the attribute selector as the primary result
with confidence 100 and `isUnique = true`. -/
theorem datatestid_primary (pats : List String) (doc : Node) (loc : Loc) (v : String)
    (hv : ((doc.nodeAt loc).bind (fun e => e.getAttr "data-testid")) = some v)
    (hne : v ≠ "")
    (hlit : rawValueLiteral v = true)
    (hsafe : generateUnsafe doc loc = false)
    (hu : queryCount doc (Sel.attr "data-testid" v) = 1) :
    (generate pats doc loc).selector = Sel.attr "data-testid" v ∧
    (generate pats doc loc).strategy = Strategy.dataTestid ∧
    (generate pats doc loc).confidence = 100 ∧
    (generate pats doc loc).isUnique = true := by
  have hdt : getDataTestId doc loc = some (Sel.attr "data-testid" v) := by
    unfold getDataTestId
    cases hnode : doc.nodeAt loc with
    | none => rw [hnode] at hv; simp at hv
    | some e =>
        rw [hnode] at hv
        simp only [Option.some_bind] at hv
        simp [truthy, hv, hne]
  have hub : isUniqueB doc (Sel.attr "data-testid" v) = true := by
    simp only [isUniqueB]
    simpa using hu
  obtain ⟨rest, hs⟩ := successes_head_testid pats doc loc hdt hub
  unfold generate
  rw [hs]
  exact ⟨rfl, rfl, rfl, rfl⟩

theorem datatestid_primary_witness :
    (generate defaultExcludedClassPatterns docW [0, 0]).selector =
      Sel.attr "data-testid" "save" ∧
    (generate defaultExcludedClassPatterns docW [0, 0]).confidence = 100 := by
  have h := datatestid_primary defaultExcludedClassPatterns docW [0, 0] "save"
    (by decide) (by decide) (by decide) (by decide) (by decide)
  exact ⟨h.1, h.2.2.1⟩

/-- C8: on the scenario document, `generate` applied to the
`<button class="ng-abc123">Save</button>` element (no id/aria/test
attributes) produces the `text`-strategy selector
`button:contains("Save")`: the `ng-*` class is excluded from the class
strategy by the default denylist, and the text `Save` is unique among
buttons. -/
theorem ng_class_text_strategy :
    (generate defaultExcludedClassPatterns docC8 [0, 0]).strategy = Strategy.text ∧
    (generate defaultExcludedClassPatterns docC8 [0, 0]).selector =
      Sel.containsSel (Sel.tagClasses "button" []) "Save" ∧
    render (generate defaultExcludedClassPatterns docC8 [0, 0]).selector =
      "button:contains(\"Save\")" ∧
    isFrameworkClass defaultExcludedClassPatterns "ng-abc123" = true ∧
    containsCount docC8 (Sel.tagClasses "button" []) "Save" = 1 := by decide

theorem count_one_decomp (p : List Char) (h : p.count '*' = 1) :
    ∃ a b, p = a ++ '*' :: b ∧ '*' ∉ a ∧ '*' ∉ b := by
  induction p with
  | nil => simp at h
  | cons c cs ih =>
      by_cases hc : c = '*'
      · subst hc
        rw [List.count_cons_self] at h
        have h0 : cs.count '*' = 0 := by omega
        exact ⟨[], cs, rfl, by simp, by rwa [← List.count_eq_zero]⟩
      · rw [List.count_cons_of_ne (fun h' => hc h'.symm)] at h
        obtain ⟨a, b, rfl, ha, hb⟩ := ih h
        refine ⟨c :: a, b, rfl, ?_, hb⟩
        intro hmem
        rcases List.mem_cons.mp hmem with h' | h'
        · exact hc h'.symm
        · exact ha h'

theorem replaceFirstStar_no_star (p : List Char) (h : '*' ∉ p) :
    replaceFirstStar p = p := by
  induction p with
  | nil => rfl
  | cons c cs ih =>
      have hc : c ≠ '*' := fun h' => h (h' ▸ List.mem_cons_self c cs)
      rw [replaceFirstStar, if_neg hc, ih (fun h' => h (List.mem_cons_of_mem _ h'))]

theorem replaceFirstStar_app (a b : List Char) (ha : '*' ∉ a) :
    replaceFirstStar (a ++ '*' :: b) = a ++ '.' :: '*' :: b := by
  induction a with
  | nil => simp [replaceFirstStar]
  | cons c cs ih =>
      have hc : c ≠ '*' := fun h' => ha (h' ▸ List.mem_cons_self c cs)
      rw [List.cons_append, replaceFirstStar, if_neg hc,
        ih (fun h' => ha (List.mem_cons_of_mem _ h'))]
      rfl

theorem compileRe_lits_step (a : List Char) :
    ∀ (acc : List RAtom) (rest : List Char), (∀ c ∈ a, c ≠ '.' ∧ c ≠ '*') →
      compileRe acc (a ++ rest) = compileRe ((a.map RAtom.lit).reverse ++ acc) rest := by
  induction a with
  | nil => intro acc rest _; simp
  | cons c cs ih =>
      intro acc rest h
      have hc := h c (List.mem_cons_self c cs)
      rw [List.cons_append]
      simp only [compileRe]
      rw [if_neg hc.1, if_neg hc.2,
        ih (RAtom.lit c :: acc) rest (fun d hd => h d (List.mem_cons_of_mem _ hd))]
      simp

theorem compileRe_no_star (p : List Char) (h : ∀ c ∈ p, c ≠ '.' ∧ c ≠ '*') :
    compileRe [] p = some (p.map RAtom.lit) := by
  have hstep := compileRe_lits_step p [] [] h
  rw [List.append_nil] at hstep
  rw [hstep]
  simp [compileRe]

theorem compileRe_dotstar_step (acc : List RAtom) (b : List Char) :
    compileRe acc ('.' :: '*' :: b) = compileRe (RAtom.starDot :: acc) b := by
  simp [compileRe]

theorem compileRe_one_star (a b : List Char)
    (ha : ∀ c ∈ a, c ≠ '.' ∧ c ≠ '*') (hb : ∀ c ∈ b, c ≠ '.' ∧ c ≠ '*') :
    compileRe [] (a ++ '.' :: '*' :: b) =
      some (a.map RAtom.lit ++ RAtom.starDot :: b.map RAtom.lit) := by
  rw [compileRe_lits_step a [] _ ha, List.append_nil, compileRe_dotstar_step]
  have hb' := compileRe_lits_step b (RAtom.starDot :: (a.map RAtom.lit).reverse) [] hb
  rw [List.append_nil] at hb'
  rw [hb']
  simp [compileRe]

theorem rmatchF_lits_eq_glob (fuel : Nat) :
    ∀ (b s : List Char), '*' ∉ b →
      rmatchF fuel (b.map RAtom.lit) s = globMatchF fuel b s := by
  induction fuel with
  | zero => intro b s _; rfl
  | succ n ih =>
      intro b s hb
      cases b with
      | nil => cases s <;> rfl
      | cons c cs =>
          have hc : c ≠ '*' := fun h => hb (h ▸ List.mem_cons_self c cs)
          have hcs : '*' ∉ cs := fun h => hb (List.mem_cons_of_mem _ h)
          rw [List.map_cons]
          simp only [globMatchF]
          rw [if_neg hc]
          cases s with
          | nil => rfl
          | cons x xs =>
              simp only [rmatchF]
              rw [ih cs xs hcs]

theorem rmatchF_star_eq_glob (fuel : Nat) :
    ∀ (a b s : List Char), '*' ∉ a → '*' ∉ b → (∀ x ∈ s, x ≠ '\n') →
      rmatchF fuel (a.map RAtom.lit ++ RAtom.starDot :: b.map RAtom.lit) s =
        globMatchF fuel (a ++ '*' :: b) s := by
  induction fuel with
  | zero => intro a b s _ _ _; rfl
  | succ n ih =>
      intro a b s ha hb hs
      cases a with
      | cons c cs =>
          have hc : c ≠ '*' := fun h => ha (h ▸ List.mem_cons_self c cs)
          have hcs : '*' ∉ cs := fun h => ha (List.mem_cons_of_mem _ h)
          rw [List.map_cons, List.cons_append, List.cons_append]
          simp only [globMatchF]
          rw [if_neg hc]
          cases s with
          | nil => rfl
          | cons x xs =>
              simp only [rmatchF]
              rw [ih cs b xs hcs hb (fun y hy => hs y (List.mem_cons_of_mem _ hy))]
      | nil =>
          rw [List.map_nil, List.nil_append, List.nil_append]
          simp only [rmatchF, globMatchF, if_true]
          rw [rmatchF_lits_eq_glob n b s hb]
          congr 1
          cases s with
          | nil => rfl
          | cons x xs =>
              dsimp only
              have hx : (x != '\n') = true := by
                simpa using hs x (List.mem_cons_self x xs)
              have h' := ih [] b xs (by simp) hb (fun y hy => hs y (List.mem_cons_of_mem _ hy))
              rw [List.map_nil, List.nil_append, List.nil_append] at h'
              rw [hx, Bool.true_and, h']

/-- C7 counterexample: under the pattern `a*b*` the code treats the class
name `a` as framework-generated (only the first `*` became a wildcard;
the second acts as regex repetition of `b`), while full-string glob
semantics rejects it. -/
theorem glob_pattern_counterexample :
    isFrameworkClass ["a*b*"] "a" = true ∧
    globMatch "a*b*".toList "a".toList = false := by decide

/-- C7 amended: for patterns over alphanumerics, `-` and `_` containing
at most one `*`, the code's compiled-regex matching agrees with
full-string glob semantics on class names (class-list tokens never
contain a newline). Patterns with more than one `*` diverge: only the
first `*` is replaced by `.*`. -/
theorem glob_pattern_matching (p cls : String)
    (hsafe : ∀ c ∈ p.toList, c.isAlphanum ∨ c = '-' ∨ c = '_' ∨ c = '*')
    (hstar : p.toList.count '*' ≤ 1)
    (hnl : ∀ x ∈ cls.toList, x ≠ '\n') :
    isFrameworkPattern p cls = globMatch p.toList cls.toList := by
  have hdot : ∀ c ∈ p.toList, c ≠ '.' := by
    intro c hc heq
    rcases hsafe c hc with h | h | h | h <;> rw [heq] at h <;> simp_all
  unfold isFrameworkPattern globMatch jsRegexMatch
  rcases Nat.lt_or_ge (p.toList.count '*') 1 with h0 | h1'
  · have hno : '*' ∉ p.toList := by
      rw [← List.count_eq_zero]; omega
    rw [replaceFirstStar_no_star _ hno,
      compileRe_no_star _ (fun c hc => ⟨hdot c hc, fun h => hno (h ▸ hc)⟩)]
    dsimp only
    rw [List.length_map]
    exact rmatchF_lits_eq_glob _ _ _ hno
  · have h1 : p.toList.count '*' = 1 := le_antisymm hstar h1'
    obtain ⟨a, b, hp, ha, hb⟩ := count_one_decomp _ h1
    have hsa : ∀ c ∈ a, c ≠ '.' ∧ c ≠ '*' :=
      fun c hc => ⟨hdot c (hp ▸ List.mem_append_left _ hc), fun h => ha (h ▸ hc)⟩
    have hsb : ∀ c ∈ b, c ≠ '.' ∧ c ≠ '*' :=
      fun c hc => ⟨hdot c (hp ▸ List.mem_append_right _ (List.mem_cons_of_mem _ hc)),
        fun h => hb (h ▸ hc)⟩
    rw [hp, replaceFirstStar_app a b ha, compileRe_one_star a b hsa hsb]
    dsimp only
    have hlen : (a.map RAtom.lit ++ RAtom.starDot :: b.map RAtom.lit).length =
        (a ++ '*' :: b).length := by simp
    rw [hlen]
    exact rmatchF_star_eq_glob _ a b _ ha hb hnl

/-- Witness for the amended C7 at the default pattern `ng-*`. -/
theorem glob_pattern_matching_witness :
    isFrameworkPattern "ng-*" "ng-scope" = globMatch "ng-*".toList "ng-scope".toList ∧
    isFrameworkPattern "ng-*" "button" = globMatch "ng-*".toList "button".toList :=
  ⟨glob_pattern_matching "ng-*" "ng-scope" (by decide) (by decide) (by decide),
   glob_pattern_matching "ng-*" "button" (by decide) (by decide) (by decide)⟩

theorem str_len_zero (s : String) (h : s.length = 0) : s = "" := by
  cases s with
  | mk data =>
      cases data with
      | nil => rfl
      | cons c cs => simp [String.length] at h

theorem str_len_pos_ne (s : String) (h : 0 < s.length) : s ≠ "" := by
  intro he
  rw [he] at h
  simp [String.length] at h

theorem append_left_ne (a b : String) (ha : a ≠ "") : a ++ b ≠ "" := by
  apply str_len_pos_ne
  rw [String.length_append]
  have : a.length ≠ 0 := fun h => ha (str_len_zero a h)
  omega

theorem append_right_ne (a b : String) (hb : b ≠ "") : a ++ b ≠ "" := by
  apply str_len_pos_ne
  rw [String.length_append]
  have : b.length ≠ 0 := fun h => hb (str_len_zero b h)
  omega

theorem foldl_append_ne (l : List String) (acc : String) (h : acc ≠ "") :
    l.foldl (fun a b => a ++ b) acc ≠ "" := by
  induction l generalizing acc with
  | nil => exact h
  | cons x xs ih => exact ih (acc ++ x) (append_left_ne acc x h)

theorem join_cons_ne (x : String) (xs : List String) (hx : x ≠ "") :
    String.join (x :: xs) ≠ "" := by
  unfold String.join
  rw [List.foldl_cons]
  exact foldl_append_ne xs ("" ++ x) (append_right_ne "" x hx)

theorem renderPart_ne (p : PathPart) (h : partSafe p = true) : renderPart p ≠ "" := by
  cases p with
  | plain t => simpa [partSafe] using h
  | nthOfType t k => exact append_right_ne _ _ (by decide)
  | nthChild t k => exact append_right_ne _ _ (by decide)

theorem intercalate_go_ne (sep : String) (l : List String) :
    ∀ acc : String, acc ≠ "" → String.intercalate.go acc sep l ≠ "" := by
  induction l with
  | nil => intro acc h; exact h
  | cons a as ih =>
      intro acc h
      rw [String.intercalate.go]
      exact ih _ (append_left_ne _ _ (append_left_ne _ _ h))

theorem intercalate_cons_ne (sep a : String) (l : List String) (ha : a ≠ "") :
    String.intercalate sep (a :: l) ≠ "" := by
  rw [String.intercalate]
  exact intercalate_go_ne sep l a ha

theorem render_ne_of_safe (s : Sel) (h : renderSafe s = true) : render s ≠ "" := by
  cases s with
  | attr n v => exact append_right_ne _ _ (by decide)
  | attrEscaped n v => exact append_right_ne _ _ (by decide)
  | roleLabel r l => exact append_right_ne _ _ (by decide)
  | hashId i => exact append_left_ne _ _ (by decide)
  | tagClasses t cs =>
      cases cs with
      | nil => simp [renderSafe] at h
      | cons c rest =>
          exact append_right_ne _ _
            (join_cons_ne _ _ (append_left_ne "." (cssEscape c) (by decide)))
  | roleClass r c => exact append_left_ne _ _ (append_right_ne _ _ (by decide))
  | containsSel b txt => exact append_right_ne _ _ (by decide)
  | roleOnly r => exact append_right_ne _ _ (by decide)
  | pathSel parts =>
      cases parts with
      | nil => simp [renderSafe] at h
      | cons p ps =>
          simp only [renderSafe, Bool.and_eq_true, List.all_cons] at h
          exact intercalate_cons_ne _ _ _ (renderPart_ne p h.2.1)

theorem tagsNonempty_go (cs : List Node) (h : Node.tagsNonempty.go cs = true) :
    ∀ c ∈ cs.filter Node.isElem, c.tagsNonempty = true := by
  induction cs with
  | nil => simp
  | cons x xs ih =>
      cases x with
      | text s =>
          rw [Node.tagsNonempty.go] at h
          intro c hc
          rw [List.filter_cons] at hc
          simp only [Node.isElem, if_neg] at hc
          exact ih h c (by simpa using hc)
      | el t a ch =>
          rw [Node.tagsNonempty.go, Bool.and_eq_true] at h
          intro c hc
          rw [List.filter_cons] at hc
          simp only [Node.isElem, if_pos] at hc
          rcases List.mem_cons.mp hc with rfl | hc'
          · exact h.1
          · exact ih h.2 c hc'

theorem tagsNonempty_nodeAt (loc : Loc) :
    ∀ (doc e : Node), doc.tagsNonempty = true → doc.nodeAt loc = some e →
      e.tagsNonempty = true := by
  induction loc with
  | nil =>
      intro doc e hwf h
      rw [Node.nodeAt] at h
      cases h
      exact hwf
  | cons i l ih =>
      intro doc e hwf h
      rw [Node.nodeAt] at h
      cases hg : (doc.elemChildren).get? i with
      | none => rw [hg] at h; simp at h
      | some c =>
          rw [hg] at h
          refine ih c e ?_ h
          have hmem : c ∈ doc.elemChildren := List.get?_mem hg
          cases doc with
          | text s => simp [Node.tagsNonempty] at hwf
          | el t a cs =>
              rw [Node.tagsNonempty, Bool.and_eq_true] at hwf
              exact tagsNonempty_go cs hwf.2 c (by simpa [Node.elemChildren] using hmem)

theorem tag_ne_of_tagsNonempty (e : Node) (h : e.tagsNonempty = true) : e.tag ≠ "" := by
  cases e with
  | text s => simp [Node.tagsNonempty] at h
  | el t a cs =>
      rw [Node.tagsNonempty, Bool.and_eq_true] at h
      simpa [Node.tag] using h.1

theorem cssPathParts_safe (doc : Node) (hwf : doc.tagsNonempty = true) :
    ∀ (fuel : Nat) (loc : Loc), ∀ p ∈ cssPathParts doc fuel loc, partSafe p = true := by
  intro fuel
  induction fuel with
  | zero => intro loc p hp; simp [cssPathParts] at hp
  | succ n ih =>
      intro loc p hp
      rw [cssPathParts] at hp
      cases hnode : doc.nodeAt loc with
      | none => rw [hnode] at hp; simp at hp
      | some e =>
          rw [hnode] at hp
          dsimp only at hp
          have htag : e.tag ≠ "" :=
            tag_ne_of_tagsNonempty e (tagsNonempty_nodeAt loc doc e hwf hnode)
          by_cases hb : some loc = bodyLoc doc
          · rw [if_pos hb] at hp; simp at hp
          · rw [if_neg hb] at hp
            cases loc with
            | nil =>
                simp only [List.mem_singleton] at hp
                subst hp
                simpa [partSafe] using htag
            | cons i l =>
                dsimp only at hp
                rcases List.mem_append.mp hp with hrec | hone
                · exact ih _ p hrec
                · simp only [List.mem_singleton] at hone
                  subst hone
                  split
                  · rfl
                  · simpa [partSafe] using htag

theorem fallbackParts_safe (doc : Node) :
    ∀ (fuel : Nat) (loc : Loc), ∀ p ∈ fallbackParts doc fuel loc, partSafe p = true := by
  intro fuel
  induction fuel with
  | zero => intro loc p hp; simp [fallbackParts] at hp
  | succ n ih =>
      intro loc p hp
      rw [fallbackParts] at hp
      cases hnode : doc.nodeAt loc with
      | none => rw [hnode] at hp; simp at hp
      | some e =>
          rw [hnode] at hp
          dsimp only at hp
          cases loc with
          | nil => simp at hp
          | cons i l =>
              dsimp only at hp
              rcases List.mem_append.mp hp with hrec | hone
              · exact ih _ p hrec
              · simp only [List.mem_singleton] at hone
                subst hone
                rfl

theorem fallbackParts_ne (doc : Node) (loc : Loc)
    (hloc : (doc.nodeAt loc).isSome = true) (hne : loc ≠ []) :
    fallbackParts doc loc.length loc ≠ [] := by
  cases loc with
  | nil => exact absurd rfl hne
  | cons i l =>
      obtain ⟨e, he⟩ := Option.isSome_iff_exists.mp hloc
      rw [show (i :: l).length = l.length + 1 from rfl, fallbackParts, he]
      dsimp only
      simp

theorem find_map_safe {doc : Node} {f : String → Sel} {l : List String} {s : Sel}
    (hshape : ∀ c, renderSafe (f c) = true)
    (h : (l.map f).find? (isUniqueB doc) = some s) : renderSafe s = true := by
  have hm := List.mem_of_find?_eq_some h
  obtain ⟨c, _, rfl⟩ := List.mem_map.mp hm
  exact hshape c

theorem take3_not_empty {A : Type} (l : List A) (h : l.length ≥ 3) :
    (l.take 3).isEmpty = false := by
  cases l with
  | nil => simp at h
  | cons x xs => rfl

theorem getDataTestId_safe (doc : Node) (loc : Loc) (s : Sel)
    (h : getDataTestId doc loc = some s) : renderSafe s = true := by
  unfold getDataTestId at h
  split at h
  · exact absurd h (by simp)
  · obtain ⟨v, hv, rfl⟩ := Option.map_eq_some'.mp h
    rfl

theorem getDataCy_safe (doc : Node) (loc : Loc) (s : Sel)
    (h : getDataCy doc loc = some s) : renderSafe s = true := by
  unfold getDataCy at h
  split at h
  · exact absurd h (by simp)
  · obtain ⟨v, hv, rfl⟩ := Option.map_eq_some'.mp h
    rfl

theorem getDataTest_safe (doc : Node) (loc : Loc) (s : Sel)
    (h : getDataTest doc loc = some s) : renderSafe s = true := by
  unfold getDataTest at h
  split at h
  · exact absurd h (by simp)
  · obtain ⟨v, hv, rfl⟩ := Option.map_eq_some'.mp h
    rfl

theorem getAriaLabel_safe (doc : Node) (loc : Loc) (s : Sel)
    (h : getAriaLabel doc loc = some s) : renderSafe s = true := by
  unfold getAriaLabel at h
  split at h
  · exact absurd h (by simp)
  · obtain ⟨v, hv, rfl⟩ := Option.map_eq_some'.mp h
    rfl

theorem getUniqueId_safe (doc : Node) (loc : Loc) (s : Sel)
    (h : getUniqueId doc loc = some s) : renderSafe s = true := by
  unfold getUniqueId at h
  split at h
  · exact absurd h (by simp)
  · dsimp only at h
    split at h
    · exact absurd h (by simp)
    · split at h
      · exact absurd h (by simp)
      · split at h
        · cases h; rfl
        · exact absurd h (by simp)

theorem getTextSelector_safe (pats : List String) (doc : Node) (loc : Loc) (s : Sel)
    (h : getTextSelector pats doc loc = some s) : renderSafe s = true := by
  unfold getTextSelector at h
  split at h
  · exact absurd h (by simp)
  · split at h
    · split at h
      · exact absurd h (by simp)
      · split at h
        · exact absurd h (by simp)
        · dsimp only at h
          split at h
          · cases h; rfl
          · refine find_map_safe (fun c => ?_) h
            rfl
    · exact absurd h (by simp)

theorem getRoleWithName_safe (pats : List String) (doc : Node) (loc : Loc) (s : Sel)
    (h : getRoleWithName pats doc loc = some s) : renderSafe s = true := by
  unfold getRoleWithName at h
  split at h
  · exact absurd h (by simp)
  · split at h
    · exact absurd h (by simp)
    · dsimp only at h
      split at h
      · split at h
        · cases h; rfl
        · exact absurd h (by simp)
      · split at h
        · cases h; rfl
        · split at h
          · cases h; rfl
          · split at h
            next heq =>
              cases h
              refine find_map_safe (fun c => ?_) heq
              rfl
            next _ =>
              split at h
              next heq =>
                cases h
                refine find_map_safe (fun c => ?_) heq
                rfl
              next _ =>
                split at h
                · cases h; rfl
                · exact absurd h (by simp)

theorem getStableClassSelector_safe (pats : List String) (doc : Node) (loc : Loc) (s : Sel)
    (h : getStableClassSelector pats doc loc = some s) : renderSafe s = true := by
  unfold getStableClassSelector at h
  split at h
  · exact absurd h (by simp)
  · dsimp only at h
    split at h
    · exact absurd h (by simp)
    · split at h
      · exact absurd h (by simp)
      · split at h
        next heq =>
          cases h
          refine find_map_safe (fun c => ?_) heq
          rfl
        next _ =>
          split at h
          · split at h
            next heq =>
              cases h
              have hm := List.mem_of_find?_eq_some heq
              rw [List.mem_flatMap] at hm
              obtain ⟨i, _, hm2⟩ := hm
              obtain ⟨j, _, rfl⟩ := List.mem_map.mp hm2
              rfl
            next _ =>
              split at h
              · split at h
                · cases h
                  simp only [renderSafe, Bool.not_eq_true']
                  exact take3_not_empty _ (by assumption)
                · exact absurd h (by simp)
              · exact absurd h (by simp)
          · exact absurd h (by simp)

theorem getCssPath_safe (doc : Node) (loc : Loc) (s : Sel)
    (hwf : doc.tagsNonempty = true)
    (h : getCssPath doc loc = some s) : renderSafe s = true := by
  unfold getCssPath at h
  split at h
  · exact absurd h (by simp)
  next p ps heq =>
    dsimp only at h
    split at h
    · cases h
      simp only [renderSafe, Bool.and_eq_true]
      constructor
      · simp
      · rw [List.all_eq_true]
        intro x hx
        exact cssPathParts_safe doc hwf 5 loc x (by rw [heq]; exact hx)
    · exact absurd h (by simp)

theorem runStrategy_safe (pats : List String) (doc : Node) (loc : Loc) (st : Strategy) (s : Sel)
    (hwf : doc.tagsNonempty = true)
    (h : runStrategy pats doc loc st = some s) : renderSafe s = true := by
  cases st with
  | dataTestid => exact getDataTestId_safe doc loc s h
  | dataCy => exact getDataCy_safe doc loc s h
  | dataTest => exact getDataTest_safe doc loc s h
  | ariaLabel => exact getAriaLabel_safe doc loc s h
  | role => exact getRoleWithName_safe pats doc loc s h
  | id => exact getUniqueId_safe doc loc s h
  | text => exact getTextSelector_safe pats doc loc s h
  | cssClass => exact getStableClassSelector_safe pats doc loc s h
  | cssPath => exact getCssPath_safe doc loc s hwf h

/-- C1 counterexample: the claim fails on both counts. On `docNestedRoot`
every strategy fails for the root element, the in-loop css path `html`
matches two elements, and the final fallback renders the empty selector
string; and on `docThrowInput` the input's quoted id puts `generate` on
the unguarded label-lookup error path, so it throws an uncaught
SyntaxError instead of returning a result. -/
theorem selector_nonempty_counterexample :
    docNestedRoot.tagsNonempty = true ∧
    (docNestedRoot.nodeAt []).isSome = true ∧
    render (generate defaultExcludedClassPatterns docNestedRoot []).selector = "" ∧
    (generate defaultExcludedClassPatterns docNestedRoot []).isUnique = false ∧
    docThrowInput.tagsNonempty = true ∧
    (docThrowInput.nodeAt [0, 0]).isSome = true ∧
    generateUnsafe docThrowInput [0, 0] = true := by decide

/-- C1 amended: `generate` is not total — it can raise an uncaught
SyntaxError from the raw-interpolated accessible-name label lookup
(the `generateUnsafe` condition). For every element of a wellformed
document on which that error path is not reached, other than the root
element, the returned selector string is nonempty; in the worst case it
is the structural fallback path, whose `isUnique` flag may be false. -/
theorem generate_selector_nonempty (pats : List String) (doc : Node) (loc : Loc)
    (hwf : doc.tagsNonempty = true) (hloc : (doc.nodeAt loc).isSome = true)
    (hne : loc ≠ []) (hsafe : generateUnsafe doc loc = false) :
    render (generate pats doc loc).selector ≠ "" := by
  unfold generate
  cases hs : successes pats doc loc with
  | cons first rest =>
      dsimp only
      have hspec := successes_spec
        (show first ∈ successes pats doc loc by rw [hs]; exact List.mem_cons_self _ _)
      exact render_ne_of_safe _
        (runStrategy_safe pats doc loc first.strategy first.selector hwf hspec.2.2)
  | nil =>
      dsimp only
      cases hcp : getCssPath doc loc with
      | some s =>
          dsimp only
          exact render_ne_of_safe _ (getCssPath_safe doc loc s hwf hcp)
      | none =>
          dsimp only
          apply render_ne_of_safe
          unfold buildFallbackPath
          simp only [renderSafe, Bool.and_eq_true]
          refine ⟨?_, ?_⟩
          · have hne' := fallbackParts_ne doc loc hloc hne
            simpa [List.isEmpty_iff] using hne'
          · rw [List.all_eq_true]
            intro x hx
            exact fallbackParts_safe doc _ loc x hx

/-- Witness for the amended C1 at a concrete element. -/
theorem generate_selector_nonempty_witness :
    render (generate defaultExcludedClassPatterns docC8 [0, 0]).selector ≠ "" :=
  generate_selector_nonempty defaultExcludedClassPatterns docC8 [0, 0]
    (by decide) (by decide) (by decide) (by decide)

end DemoFramework
